import Mathlib

/-!
Verification development for the `airflow-poc` TimescaleDB → S3 pipeline
(`dags/timescale_to_s3_pipeline.py`).

The DAG's four task callables (`extract_timescale_data`,
`convert_csv_to_parquet`, `upload_to_s3`, `notify_completion`) are embedded
shallowly: Python strings become lists of characters (so that Python slicing
is `List.take`/`List.drop`), the local filesystem becomes an association list
from path to file data, and each task becomes a function from the filesystem
to a new filesystem, a trace of externally visible events, and an `Except`
result mirroring the exceptions the Python code can raise.
-/

namespace TimescalePipeline

/-- A Python string, modelled as its list of characters. -/
abbrev Str := List Char

/-- Characters of a Lean string literal, used to embed Python literals. -/
def strOf (s : String) : Str := s.data

/-- The decimal digit character for `n % 10`. -/
def digitChar (n : Nat) : Char := Char.ofNat (48 + n % 10)

/-- The `w` least significant decimal digits of `n`, most significant first
(zero-padded decimal rendering of `n` when `n < 10 ^ w`). -/
def padNatDigits (w n : Nat) : List Nat :=
  (List.range w).reverse.map (fun i => n / 10 ^ i % 10)

/-- Zero-padded decimal rendering of `n` to width `w`, as characters. -/
def padDigits (w n : Nat) : Str :=
  (padNatDigits w n).map digitChar

/-- The number denoted by a most-significant-first digit list. -/
def natOfDigits (l : List Nat) : Nat := l.foldl (fun a d => a * 10 + d) 0

/-- Modelled from the spec: the scheduler hands each task the run date as the
zero-padded `YYYY-MM-DD` string `context['ds']`; this renders a calendar date
`(y, m, d)` to that string. The rendering itself is not in the repository
source (it is supplied by the scheduler), so it is modelled from the spec's
"run_date: calendar date" and the key format `year=YYYY/month=MM/day=DD`. -/
def dsOf (y m d : Nat) : Str :=
  padDigits 4 y ++ '-' :: (padDigits 2 m ++ '-' :: padDigits 2 d)

/-- Line 75: `csv_file = f"/tmp/timescale_data_{context['ds']}.csv"`. -/
def csvPathOf (ds : Str) : Str := strOf "/tmp/timescale_data_" ++ ds ++ strOf ".csv"

/-- Fuel-indexed worker for Python `str.replace`: replace every non-overlapping
occurrence of `pat`, scanning left to right. -/
def replaceGo : Nat → Str → Str → Str → Str
  | 0, _, _, s => s
  | _ + 1, _, _, [] => []
  | n + 1, pat, rep, c :: rest =>
    if pat ≠ [] ∧ pat.isPrefixOf (c :: rest) then
      rep ++ replaceGo n pat rep ((c :: rest).drop pat.length)
    else
      c :: replaceGo n pat rep rest

/-- Python `s.replace(pat, rep)` (all occurrences, left to right). -/
def pyReplace (s pat rep : Str) : Str := replaceGo s.length pat rep s

/-- Python `os.path.basename`: the characters after the last `'/'`. -/
def basename (p : Str) : Str :=
  p.foldl (fun acc c => if c = '/' then [] else acc ++ [c]) []

/-- Line 109: `parquet_file = csv_file.replace('.csv', '.parquet')`. -/
def parquetPathOf (ds : Str) : Str :=
  pyReplace (csvPathOf ds) (strOf ".csv") (strOf ".parquet")

/-- Lines 158–160: the S3 object key
`f"timescale_data/year={ds[:4]}/month={ds[5:7]}/day={ds[8:10]}/{file_name}"`,
with Python slicing rendered as `take`/`drop`. -/
def s3KeyOf (ds fname : Str) : Str :=
  strOf "timescale_data/year=" ++ ds.take 4 ++
    strOf "/month=" ++ (ds.drop 5).take 2 ++
    strOf "/day=" ++ (ds.drop 8).take 2 ++
    strOf "/" ++ fname

/-- The object key the pipeline produces for a run date, as a function of the
run date alone: the parquet file name is itself derived from `ds`. -/
def canonicalKey (ds : Str) : Str :=
  s3KeyOf ds (basename (parquetPathOf ds))

/-! ## Source data and the extraction query -/

/-- One row of the `sample-location-data` hypertable, with the columns the
query at lines 48–67 touches. Numeric sensor fields are rationals so that the
SQL `AVG` is exact; timestamps are seconds. -/
structure SourceRow where
  ts : Nat
  device_id : Nat
  latitude : Rat
  longitude : Rat
  speed : Rat
  temperature : Rat
  humidity : Rat
  battery_level : Rat
  city : Str
  country : Str
deriving DecidableEq

/-- One row of the query result (the columns selected at lines 49–62). -/
structure AggRow where
  hour_bucket : Nat
  device_id : Nat
  avg_latitude : Rat
  avg_longitude : Rat
  avg_speed : Rat
  avg_temperature : Rat
  avg_humidity : Rat
  avg_battery_level : Rat
  record_count : Nat
  max_timestamp : Nat
  min_timestamp : Nat
  city : Str
  country : Str
deriving DecidableEq

/-- `time_bucket('1 hour', timestamp_column)`: truncate to the hour. -/
def hourBucket (ts : Nat) : Nat := ts / 3600 * 3600

/-- The `GROUP BY hour_bucket, device_id, city, country` key of a row. -/
def gkey (r : SourceRow) : Nat × Nat × Str × Str :=
  (hourBucket r.ts, r.device_id, r.city, r.country)

/-- The distinct group keys of a row list, in order of first appearance. -/
def keysOf (rows : List SourceRow) : List (Nat × Nat × Str × Str) :=
  rows.foldl (fun acc r => if gkey r ∈ acc then acc else acc ++ [gkey r]) []

/-- The aggregate row of one group: `AVG` of each sensor field, `COUNT(*)`,
`MAX`/`MIN` of the timestamp (lines 49–62). -/
def aggOf (rows : List SourceRow) (k : Nat × Nat × Str × Str) : AggRow :=
  let g := rows.filter (fun r => decide (gkey r = k))
  let n := g.length
  { hour_bucket := k.1
    device_id := k.2.1
    avg_latitude := (g.map (·.latitude)).sum / (n : Rat)
    avg_longitude := (g.map (·.longitude)).sum / (n : Rat)
    avg_speed := (g.map (·.speed)).sum / (n : Rat)
    avg_temperature := (g.map (·.temperature)).sum / (n : Rat)
    avg_humidity := (g.map (·.humidity)).sum / (n : Rat)
    avg_battery_level := (g.map (·.battery_level)).sum / (n : Rat)
    record_count := n
    max_timestamp := ((g.map (·.ts)).max?).getD 0
    min_timestamp := ((g.map (·.ts)).min?).getD 0
    city := k.2.2.1
    country := k.2.2.2 }

/-- `ORDER BY hour_bucket DESC, device_id` (line 66) as a relation: `a` may
precede `b` iff `a`'s bucket is later, or buckets tie and `a`'s device
identifier is not larger. -/
def aggOrdered (a b : AggRow) : Prop :=
  b.hour_bucket < a.hour_bucket ∨
    (a.hour_bucket = b.hour_bucket ∧ a.device_id ≤ b.device_id)

instance : DecidableRel aggOrdered := fun a b => by
  unfold aggOrdered
  exact inferInstance

instance : IsTotal AggRow aggOrdered := by
  constructor
  intro a b
  unfold aggOrdered
  omega

instance : IsTrans AggRow aggOrdered := by
  constructor
  intro a b c hab hbc
  unfold aggOrdered at hab hbc ⊢
  omega

/-- Modelled from the spec: evaluation of the SQL text at lines 48–67 (the
query engine itself is the external source store). `WHERE timestamp_column >=
NOW() - INTERVAL '24 hours'` filters to the lookback window, `GROUP BY`
aggregates per key, `ORDER BY hour_bucket DESC, device_id` sorts the result. -/
def runQuery (now : Nat) (rows : List SourceRow) : List AggRow :=
  let windowed := rows.filter (fun r => decide (now - 86400 ≤ r.ts))
  ((keysOf windowed).map (aggOf windowed)).insertionSort aggOrdered

/-! ## Filesystem, events, and errors -/

/-- A staging file's format. -/
inductive FileFmt where
  | rowCsv
  | colParquet
deriving DecidableEq

/-- A staging file: its format, its table of rows, and its byte size. The
serialized byte size is abstracted as a function of the content. -/
structure FileData where
  fmt : FileFmt
  rows : List AggRow
  bytes : Nat
deriving DecidableEq

/-- Abstract serialized size of a CSV staging file. -/
def csvBytes (rows : List AggRow) : Nat := rows.length * 120 + 64

/-- Abstract serialized size of a parquet staging file. -/
def parquetBytes (rows : List AggRow) : Nat := rows.length * 40 + 128

/-- The local staging filesystem: paths mapped to file data. -/
abbrev FS := List (Str × FileData)

/-- Look a path up in the filesystem. -/
def lookupFS : FS → Str → Option FileData
  | [], _ => none
  | (q, d) :: t, p => if q = p then some d else lookupFS t p

/-- `os.remove`: drop a path from the filesystem. -/
def removeFile (fs : FS) (p : Str) : FS :=
  fs.filter (fun e => decide (e.1 ≠ p))

/-- Write (or overwrite) a file. -/
def setFile (fs : FS) (p : Str) (d : FileData) : FS :=
  (p, d) :: removeFile fs p

/-- Externally visible events a task emits, in program order. -/
inductive Event where
  | writeFile (p : Str)
  | deleteFile (p : Str)
  | mkSession (profile : Str)
  | s3put (bucket : Str) (key : Str) (bytes : Nat)
  | wait (minutes : Nat)
deriving DecidableEq

/-- The exceptions the task callables can raise, named after the spec's error
taxonomy and the Python exception types. -/
inductive PipeError where
  | extractionError
  | fileNotFoundError
  | valueError
  | conversionError
  | uploadError
  | missingUpstreamResult
deriving DecidableEq

/-- Result of running one task: the filesystem afterwards, the event trace,
and either the task's return value or the exception it raised. -/
abbrev StageResult (α : Type) := FS × List Event × Except PipeError α

/-! ## The four task callables -/

/-- Environment of `extract_timescale_data`: the connection parameters of
lines 36–45 are abstracted into whether the store is reachable and the query
succeeds (`dbOk`), plus the store's clock and table contents. -/
structure ExtractEnv where
  dbOk : Bool
  now : Nat
  rows : List SourceRow

/-- `extract_timescale_data` (lines 28–85): run the query, write the result
to `/tmp/timescale_data_{ds}.csv`, return that path; any connectivity or
query error is raised (lines 83–85) with nothing written. -/
def extract (env : ExtractEnv) (ds : Str) (fs : FS) : StageResult Str :=
  if env.dbOk then
    let table := runQuery env.now env.rows
    let csv := csvPathOf ds
    (setFile fs csv ⟨FileFmt.rowCsv, table, csvBytes table⟩,
     [Event.writeFile csv], Except.ok csv)
  else
    (fs, [], Except.error PipeError.extractionError)

/-- Environment of `convert_csv_to_parquet`: whether `pd.read_csv`
(line 102) and `pq.write_table` (lines 112–118) succeed. -/
structure ConvEnv where
  readOk : Bool
  writeOk : Bool

/-- `convert_csv_to_parquet` (lines 87–130): pull the CSV path from XCom,
raise `FileNotFoundError` if it is `None`, empty, or not on disk
(lines 95–98); read it, write the sibling `.parquet` file (lines 100–118),
and only then delete the CSV (line 123). Read or write failures are raised
(lines 128–130) with the filesystem untouched. -/
def convert (env : ConvEnv) (xcomCsv : Option Str) (fs : FS) : StageResult Str :=
  match xcomCsv with
  | none => (fs, [], Except.error PipeError.fileNotFoundError)
  | some csv =>
    if csv = [] then (fs, [], Except.error PipeError.fileNotFoundError)
    else
      match lookupFS fs csv with
      | none => (fs, [], Except.error PipeError.fileNotFoundError)
      | some fd =>
        if env.readOk then
          if env.writeOk then
            let pq := pyReplace csv (strOf ".csv") (strOf ".parquet")
            let fs1 := setFile fs pq ⟨FileFmt.colParquet, fd.rows, parquetBytes fd.rows⟩
            (removeFile fs1 csv, [Event.writeFile pq, Event.deleteFile csv], Except.ok pq)
          else (fs, [], Except.error PipeError.conversionError)
        else (fs, [], Except.error PipeError.conversionError)

/-- Environment of `upload_to_s3`: the `AWS_S3_BUCKET` and `AWS_PROFILE`
environment variables (lines 146–147), whether the boto3 session/client can
be created (lines 154–155), whether the transfer succeeds (line 163), and
the wall clock read at line 178. -/
structure UploadEnv where
  bucket : Option Str
  profileVar : Option Str
  sessionOk : Bool
  transferOk : Bool
  nowIso : Nat

/-- The dictionary returned by `upload_to_s3` (lines 174–179). -/
structure UploadResult where
  bucket : Str
  key : Str
  file_size_bytes : Nat
  upload_time : Nat
deriving DecidableEq

/-- `upload_to_s3` (lines 132–185): pull the parquet path from XCom and
raise `FileNotFoundError` if missing (lines 140–143); raise `ValueError` if
`AWS_S3_BUCKET` is unset (lines 149–150) — before any session or transfer;
create the session (lines 153–155), derive the partitioned key (lines
157–160), upload (line 163), read the file size (line 166), delete the local
file (line 171), and return the upload details. Session or transfer errors
are raised (lines 183–185) with the local file preserved. -/
def upload (env : UploadEnv) (ds : Str) (xcomPq : Option Str) (fs : FS) :
    StageResult UploadResult :=
  match xcomPq with
  | none => (fs, [], Except.error PipeError.fileNotFoundError)
  | some pq =>
    if pq = [] then (fs, [], Except.error PipeError.fileNotFoundError)
    else
      match lookupFS fs pq with
      | none => (fs, [], Except.error PipeError.fileNotFoundError)
      | some fd =>
        match env.bucket with
        | none => (fs, [], Except.error PipeError.valueError)
        | some bucket =>
          if env.sessionOk then
            let profileUsed := env.profileVar.getD (strOf "qa-in")
            let key := s3KeyOf ds (basename pq)
            if env.transferOk then
              (removeFile fs pq,
               [Event.mkSession profileUsed, Event.s3put bucket key fd.bytes,
                Event.deleteFile pq],
               Except.ok ⟨bucket, key, fd.bytes, env.nowIso⟩)
            else (fs, [Event.mkSession profileUsed], Except.error PipeError.uploadError)
          else (fs, [], Except.error PipeError.uploadError)

/-- The structured completion record `notify_completion` logs
(lines 193–198). -/
structure NotifyRecord where
  execution_date : Str
  bucket : Str
  key : Str
  size_bytes : Nat
  upload_time : Nat
deriving DecidableEq

/-- `notify_completion` (lines 187–198): pull the upload details from XCom;
subscripting a missing result raises (the spec's `MissingUpstreamResult`);
otherwise emit the completion record. -/
def notify (ds : Str) (xcomUpload : Option UploadResult) :
    Except PipeError NotifyRecord :=
  match xcomUpload with
  | none => Except.error PipeError.missingUpstreamResult
  | some u => Except.ok ⟨ds, u.bucket, u.key, u.file_size_bytes, u.upload_time⟩

/-! ## DAG default arguments and the run-level retry machine -/

/-- The DAG `default_args` dictionary (lines 17–26). The `start_date` is
kept as a date triple. -/
structure DefaultArgs where
  owner : Str
  depends_on_past : Bool
  start_date : Nat × Nat × Nat
  email_on_failure : Bool
  email_on_retry : Bool
  retries : Nat
  retry_delay_minutes : Nat
  execution_timeout_hours : Nat

/-- Lines 17–26 of the DAG file. -/
def default_args : DefaultArgs :=
  { owner := strOf "data_team"
    depends_on_past := false
    start_date := (2025, 11, 18)
    email_on_failure := true
    email_on_retry := false
    retries := 2
    retry_delay_minutes := 5
    execution_timeout_hours := 2 }

/-- A task is attempted at most `1 + retries` times. -/
def maxTries : Nat := default_args.retries + 1

/-- Outcome of attempting one task under the retry policy. -/
structure AttemptOut (α : Type) where
  fs : FS
  trace : List Event
  attempts : Nat
  result : Option α

/-- Modelled from the spec: the scheduler retries a failed task up to the
`retries` bound with a fixed `retry_delay` backoff between attempts (§4:
"Each stage is retried independently up to a fixed bound (2 retries) with a
fixed backoff (5 minutes)"); the retry re-invokes only this task. `n` is the
number of attempts still allowed. -/
def attemptTask {α : Type} (step : FS → StageResult α) : Nat → FS → AttemptOut α
  | 0, fs => ⟨fs, [], 0, none⟩
  | n + 1, fs =>
    match step fs with
    | (fs1, tr, Except.ok a) => ⟨fs1, tr, 1, some a⟩
    | (fs1, tr, Except.error _) =>
      if n = 0 then ⟨fs1, tr, 1, none⟩
      else
        let rest := attemptTask step n fs1
        ⟨rest.fs, tr ++ Event.wait default_args.retry_delay_minutes :: rest.trace,
         rest.attempts + 1, rest.result⟩

/-- The run's terminal state. -/
inductive RunState where
  | Completed
  | Failed
deriving DecidableEq

/-- The pipeline's stages, in dependency order (lines 212–237). -/
inductive Stage where
  | extracting
  | converting
  | uploading
  | notifying
deriving DecidableEq

/-- Everything observable about one whole run. -/
structure RunOutcome where
  fs : FS
  trace : List Event
  state : RunState
  failedStage : Option Stage
  extractAttempts : Nat
  convertAttempts : Nat
  uploadAttempts : Nat
  notifyAttempts : Nat
  uploadResult : Option UploadResult
  notifyRecord : Option NotifyRecord

/-- The external collaborators of one run. -/
structure RunEnv where
  eenv : ExtractEnv
  cenv : ConvEnv
  uenv : UploadEnv

/-- Modelled from the spec: the run coordinator executes
extract → convert → upload → notify strictly in order (line 237), passing
each task's return value to the next by XCom, retrying each task under
`default_args`, and marking the run `Failed` as soon as a task exhausts its
attempts (downstream tasks then never run). -/
def runPipeline (env : RunEnv) (ds : Str) (fs0 : FS) : RunOutcome :=
  let e := attemptTask (extract env.eenv ds) maxTries fs0
  match e.result with
  | none =>
    ⟨e.fs, e.trace, RunState.Failed, some Stage.extracting,
     e.attempts, 0, 0, 0, none, none⟩
  | some csv =>
    let c := attemptTask (convert env.cenv (some csv)) maxTries e.fs
    match c.result with
    | none =>
      ⟨c.fs, e.trace ++ c.trace, RunState.Failed, some Stage.converting,
       e.attempts, c.attempts, 0, 0, none, none⟩
    | some pq =>
      let u := attemptTask (upload env.uenv ds (some pq)) maxTries c.fs
      match u.result with
      | none =>
        ⟨u.fs, e.trace ++ c.trace ++ u.trace, RunState.Failed, some Stage.uploading,
         e.attempts, c.attempts, u.attempts, 0, none, none⟩
      | some r =>
        let nt := attemptTask (fun fs => (fs, [], notify ds (some r))) maxTries u.fs
        match nt.result with
        | none =>
          ⟨nt.fs, e.trace ++ c.trace ++ u.trace ++ nt.trace, RunState.Failed,
           some Stage.notifying, e.attempts, c.attempts, u.attempts, nt.attempts,
           some r, none⟩
        | some rec =>
          ⟨nt.fs, e.trace ++ c.trace ++ u.trace ++ nt.trace, RunState.Completed,
           none, e.attempts, c.attempts, u.attempts, nt.attempts,
           some r, some rec⟩

/-! ## The destination object store -/

/-- The object store's contents: `(bucket, key)` pairs mapped to object
sizes. -/
abbrev S3State := List ((Str × Str) × Nat)

/-- Modelled from the spec: object storage `put` overwrites the object at a
key ("overwrites the same key rather than creating duplicates"). -/
def s3putObj (s3 : S3State) (b k : Str) (v : Nat) : S3State :=
  ((b, k), v) :: s3.filter (fun e => decide (e.1 ≠ (b, k)))

/-- Replay the `s3put` events of a trace against the object store. -/
def applyEvents (s3 : S3State) (tr : List Event) : S3State :=
  tr.foldl (fun s e =>
    match e with
    | Event.s3put b k v => s3putObj s b k v
    | _ => s) s3

/-- How many objects the store holds under `(b, k)`. -/
def countKey (s3 : S3State) (b k : Str) : Nat :=
  (s3.filter (fun e => decide (e.1 = (b, k)))).length

/-- The `s3put` events of a trace, in order. -/
def putsOf (tr : List Event) : List ((Str × Str) × Nat) :=
  tr.filterMap (fun e =>
    match e with
    | Event.s3put b k v => some ((b, k), v)
    | _ => none)

/-! ## Helper lemmas -/

theorem lookupFS_setFile_self (fs : FS) (p : Str) (d : FileData) :
    lookupFS (setFile fs p d) p = some d := by
  simp [setFile, lookupFS]

/-- A characterization of a successful `extract`: the CSV path is the
run-date path, the trace is one write, and the file holds the query result. -/
theorem extract_ok_eq (env : ExtractEnv) (ds : Str) (fs : FS) (p : Str)
    (h : (extract env ds fs).2.2 = Except.ok p) :
    p = csvPathOf ds ∧
    (extract env ds fs).2.1 = [Event.writeFile (csvPathOf ds)] ∧
    (extract env ds fs).1 = setFile fs (csvPathOf ds)
      ⟨FileFmt.rowCsv, runQuery env.now env.rows, csvBytes (runQuery env.now env.rows)⟩ := by
  by_cases hdb : env.dbOk <;> simp_all [extract]

/-- A failed `extract` leaves the filesystem unchanged and emits no events. -/
theorem extract_error_eq (env : ExtractEnv) (ds : Str) (fs : FS) (e : PipeError)
    (h : (extract env ds fs).2.2 = Except.error e) :
    (extract env ds fs).1 = fs ∧ (extract env ds fs).2.1 = [] := by
  by_cases hdb : env.dbOk <;> simp_all [extract]

/-- A characterization of a successful `convert`. -/
theorem convert_ok_eq (env : ConvEnv) (xc : Option Str) (fs : FS) (pq : Str)
    (h : (convert env xc fs).2.2 = Except.ok pq) :
    ∃ csv fd, xc = some csv ∧ lookupFS fs csv = some fd ∧
      pq = pyReplace csv (strOf ".csv") (strOf ".parquet") ∧
      (convert env xc fs).2.1 = [Event.writeFile pq, Event.deleteFile csv] ∧
      (convert env xc fs).1 =
        removeFile (setFile fs pq ⟨FileFmt.colParquet, fd.rows, parquetBytes fd.rows⟩) csv := by
  rcases xc with _ | csv
  · simp [convert] at h
  · by_cases hcsv : csv = []
    · simp [convert, hcsv] at h
    · rcases hl : lookupFS fs csv with _ | fd
      · simp [convert, hcsv, hl] at h
      · by_cases hr : env.readOk
        · by_cases hw : env.writeOk
          · refine ⟨csv, fd, rfl, hl, ?_⟩
            simp [convert, hcsv, hl, hr, hw] at h ⊢
            simp [← h]
          · simp [convert, hcsv, hl, hr, hw] at h
        · simp [convert, hcsv, hl, hr] at h

/-- A failed `convert` leaves the filesystem unchanged and emits no events. -/
theorem convert_error_eq (env : ConvEnv) (xc : Option Str) (fs : FS) (e : PipeError)
    (h : (convert env xc fs).2.2 = Except.error e) :
    (convert env xc fs).1 = fs ∧ (convert env xc fs).2.1 = [] := by
  rcases xc with _ | csv
  · simp [convert]
  · by_cases hcsv : csv = []
    · simp [convert, hcsv]
    · rcases hl : lookupFS fs csv with _ | fd
      · simp [convert, hcsv, hl]
      · by_cases hr : env.readOk
        · by_cases hw : env.writeOk
          · simp [convert, hcsv, hl, hr, hw] at h
          · simp [convert, hcsv, hl, hr, hw]
        · simp [convert, hcsv, hl, hr]

/-- A characterization of a successful `upload`. -/
theorem upload_ok_eq (env : UploadEnv) (ds : Str) (xc : Option Str) (fs : FS)
    (r : UploadResult) (h : (upload env ds xc fs).2.2 = Except.ok r) :
    ∃ pq fd, xc = some pq ∧ lookupFS fs pq = some fd ∧
      env.bucket = some r.bucket ∧
      r.key = s3KeyOf ds (basename pq) ∧
      r.file_size_bytes = fd.bytes ∧
      (upload env ds xc fs).2.1 =
        [Event.mkSession (env.profileVar.getD (strOf "qa-in")),
         Event.s3put r.bucket r.key fd.bytes, Event.deleteFile pq] ∧
      (upload env ds xc fs).1 = removeFile fs pq := by
  rcases xc with _ | pq
  · simp [upload] at h
  · by_cases hpq : pq = []
    · simp [upload, hpq] at h
    · rcases hl : lookupFS fs pq with _ | fd
      · simp [upload, hpq, hl] at h
      · rcases hb : env.bucket with _ | bucket
        · simp [upload, hpq, hl, hb] at h
        · by_cases hs : env.sessionOk
          · by_cases ht : env.transferOk
            · refine ⟨pq, fd, rfl, hl, ?_⟩
              simp [upload, hpq, hl, hb, hs, ht] at h ⊢
              simp [← h]
            · simp [upload, hpq, hl, hb, hs, ht] at h
          · simp [upload, hpq, hl, hb, hs] at h

/-- A failed `upload` leaves the filesystem unchanged and emits no
deletion, no transfer, and no `s3put`. -/
theorem upload_error_eq (env : UploadEnv) (ds : Str) (xc : Option Str) (fs : FS)
    (e : PipeError) (h : (upload env ds xc fs).2.2 = Except.error e) :
    (upload env ds xc fs).1 = fs ∧
    (∀ p, Event.deleteFile p ∉ (upload env ds xc fs).2.1) ∧
    (∀ b k v, Event.s3put b k v ∉ (upload env ds xc fs).2.1) := by
  rcases xc with _ | pq
  · simp [upload]
  · by_cases hpq : pq = []
    · simp [upload, hpq]
    · rcases hl : lookupFS fs pq with _ | fd
      · simp [upload, hpq, hl]
      · rcases hb : env.bucket with _ | bucket
        · simp [upload, hpq, hl, hb]
        · by_cases hs : env.sessionOk
          · by_cases ht : env.transferOk
            · simp [upload, hpq, hl, hb, hs, ht] at h
            · simp [upload, hpq, hl, hb, hs, ht]
          · simp [upload, hpq, hl, hb, hs]

/-- If every failing invocation of `step` leaves the filesystem unchanged,
then a successful retried task succeeded on its first attempt, and the
attempt's filesystem and trace are that first invocation's. -/
theorem attemptTask_some {α : Type} (step : FS → StageResult α)
    (hpres : ∀ fs e, (step fs).2.2 = Except.error e → (step fs).1 = fs)
    (n : Nat) :
    ∀ (fs : FS) (a : α), (attemptTask step n fs).result = some a →
      (step fs).2.2 = Except.ok a ∧
      (attemptTask step n fs).fs = (step fs).1 ∧
      (attemptTask step n fs).trace = (step fs).2.1 := by
  induction n with
  | zero => intro fs a h; simp [attemptTask] at h
  | succ n ih =>
    intro fs a h
    rcases hs : step fs with ⟨fs1, tr, res⟩
    rcases res with e | b
    · have hfs1 : fs1 = fs := by
        have := hpres fs e (by rw [hs])
        rw [hs] at this; exact this
      subst hfs1
      by_cases hn : n = 0
      · subst hn; simp [attemptTask, hs] at h
      · simp only [attemptTask, hs, if_neg hn] at h
        have := (ih fs1 a h).1
        rw [hs] at this
        simp at this
    · simp only [attemptTask, hs] at h
      injection h with hba
      subst hba
      simp [attemptTask, hs]

/-- Any event in a retried task's trace either came from one invocation of
the task or is a backoff wait. -/
theorem attemptTask_events {α : Type} (step : FS → StageResult α)
    (P : Event → Prop)
    (hstep : ∀ fs, ∀ ev ∈ (step fs).2.1, P ev)
    (hwait : ∀ m, P (Event.wait m)) (n : Nat) :
    ∀ fs, ∀ ev ∈ (attemptTask step n fs).trace, P ev := by
  induction n with
  | zero => intro fs ev h; simp [attemptTask] at h
  | succ n ih =>
    intro fs ev h
    rcases hs : step fs with ⟨fs1, tr, res⟩
    rcases res with e | b
    · by_cases hn : n = 0
      · subst hn
        simp only [attemptTask, hs, if_pos rfl] at h
        exact hstep fs ev (by rw [hs]; exact h)
      · simp only [attemptTask, hs, if_neg hn, List.mem_append, List.mem_cons] at h
        rcases h with h | h | h
        · exact hstep fs ev (by rw [hs]; exact h)
        · subst h; exact hwait _
        · exact ih fs1 ev h
    · simp only [attemptTask, hs] at h
      exact hstep fs ev (by rw [hs]; exact h)

/-- A task whose every invocation fails identically, under three allowed
attempts: three attempts, two five-minute backoffs, no other event, no
result, and an unchanged filesystem. -/
theorem attemptTask_const_error {α : Type} (step : FS → StageResult α)
    (e : PipeError) (hstep : ∀ fs, step fs = (fs, [], Except.error e)) (fs : FS) :
    attemptTask step maxTries fs =
      ⟨fs, [Event.wait default_args.retry_delay_minutes,
            Event.wait default_args.retry_delay_minutes], 3, none⟩ := by
  simp [maxTries, default_args, attemptTask, hstep]

/-- The query result is sorted: descending hour bucket, ties broken by
ascending device identifier. -/
theorem runQuery_sorted (now : Nat) (rows : List SourceRow) :
    (runQuery now rows).Pairwise aggOrdered :=
  List.sorted_insertionSort aggOrdered _

theorem putsOf_append (t1 t2 : List Event) :
    putsOf (t1 ++ t2) = putsOf t1 ++ putsOf t2 := by
  simp [putsOf]

/-- A trace with no `s3put` event has no puts. -/
theorem putsOf_eq_nil (tr : List Event)
    (h : ∀ b k v, Event.s3put b k v ∉ tr) : putsOf tr = [] := by
  induction tr with
  | nil => rfl
  | cons e t ih =>
    have ht : ∀ b k v, Event.s3put b k v ∉ t := by
      intro b k v hm
      exact h b k v (List.mem_cons_of_mem _ hm)
    rcases e with p | p | p | ⟨b, k, v⟩ | m
    · simpa [putsOf] using ih ht
    · simpa [putsOf] using ih ht
    · simpa [putsOf] using ih ht
    · exact absurd (List.mem_cons_self _ _) (h b k v)
    · simpa [putsOf] using ih ht

/-- Replaying a trace only replays its puts. -/
theorem applyEvents_eq_puts (s3 : S3State) (tr : List Event) :
    applyEvents s3 tr =
      (putsOf tr).foldl (fun s p => s3putObj s p.1.1 p.1.2 p.2) s3 := by
  induction tr generalizing s3 with
  | nil => rfl
  | cons e t ih =>
    rcases e with p | p | p | ⟨b, k, v⟩ | m <;>
      simp only [applyEvents, putsOf, List.foldl_cons, List.filterMap_cons] <;>
      exact ih _

theorem filter_eq_of_filter_ne (s3 : S3State) (b k : Str) :
    (s3.filter (fun e => decide (e.1 ≠ (b, k)))).filter
      (fun e => decide (e.1 = (b, k))) = [] := by
  induction s3 with
  | nil => rfl
  | cons e t ih => by_cases he : e.1 = (b, k) <;> simp [he, ih]

/-- After a put, the store holds exactly one object under that key. -/
theorem countKey_s3putObj (s3 : S3State) (b k : Str) (v : Nat) :
    countKey (s3putObj s3 b k v) b k = 1 := by
  simp [countKey, s3putObj, List.filter_cons, filter_eq_of_filter_ne]

/-- No invocation of `extract` ever emits an `s3put` or a session. -/
theorem extract_trace_events (env : ExtractEnv) (ds : Str) (fs : FS) :
    ∀ ev ∈ (extract env ds fs).2.1, ∃ p, ev = Event.writeFile p := by
  by_cases hdb : env.dbOk <;> simp [extract, hdb]

/-- No invocation of `convert` ever emits an `s3put` or a session. -/
theorem convert_trace_events (env : ConvEnv) (xc : Option Str) (fs : FS) :
    ∀ ev ∈ (convert env xc fs).2.1,
      (∃ p, ev = Event.writeFile p) ∨ (∃ p, ev = Event.deleteFile p) := by
  rcases xc with _ | csv
  · simp [convert]
  · by_cases hcsv : csv = []
    · simp [convert, hcsv]
    · rcases hl : lookupFS fs csv with _ | fd
      · simp [convert, hcsv, hl]
      · by_cases hr : env.readOk
        · by_cases hw : env.writeOk
          · simp [convert, hcsv, hl, hr, hw]
          · simp [convert, hcsv, hl, hr, hw]
        · simp [convert, hcsv, hl, hr]

/-- A trace of backoff waits has no puts. -/
theorem putsOf_wait_only (tr : List Event)
    (h : ∀ ev ∈ tr, ∃ m, ev = Event.wait m) : putsOf tr = [] := by
  refine putsOf_eq_nil tr ?_
  intro b k v hm
  rcases h _ hm with ⟨m, hm'⟩
  simp at hm'

/-- If a retried task produced no result, every event of its trace came from
a failing invocation or is a backoff wait. -/
theorem attemptTask_none_events {α : Type} (step : FS → StageResult α)
    (P : Event → Prop)
    (hstep : ∀ fs e, (step fs).2.2 = Except.error e → ∀ ev ∈ (step fs).2.1, P ev)
    (hwait : ∀ m, P (Event.wait m)) (n : Nat) :
    ∀ fs, (attemptTask step n fs).result = none →
      ∀ ev ∈ (attemptTask step n fs).trace, P ev := by
  induction n with
  | zero => intro fs h ev hev; simp [attemptTask] at hev
  | succ n ih =>
    intro fs h ev hev
    rcases hs : step fs with ⟨fs1, tr, res⟩
    rcases res with e | b
    · by_cases hn : n = 0
      · subst hn
        simp only [attemptTask, hs, if_pos rfl] at hev
        exact hstep fs e (by rw [hs]) ev (by rw [hs]; exact hev)
      · simp only [attemptTask, hs, if_neg hn] at hev h
        rcases List.mem_append.mp hev with h1 | h1
        · exact hstep fs e (by rw [hs]) ev (by rw [hs]; exact h1)
        · rcases List.mem_cons.mp h1 with h2 | h2
          · subst h2; exact hwait _
          · exact ih fs1 h ev h2
    · simp only [attemptTask, hs] at h
      simp at h

/-- A successful run's upload result carries the canonical run-date key and
the configured bucket, and the run's trace contains exactly one put: that
object. -/
theorem run_upload_some (env : RunEnv) (ds : Str) (fs0 : FS) (r : UploadResult)
    (h : (runPipeline env ds fs0).uploadResult = some r) :
    r.key = canonicalKey ds ∧ env.uenv.bucket = some r.bucket ∧
    putsOf (runPipeline env ds fs0).trace = [((r.bucket, r.key), r.file_size_bytes)] := by
  have hpresE : ∀ fs e, (extract env.eenv ds fs).2.2 = Except.error e →
      (extract env.eenv ds fs).1 = fs := fun fs e he => (extract_error_eq _ _ _ _ he).1
  rcases hE : (attemptTask (extract env.eenv ds) maxTries fs0).result with _ | csv
  · simp only [runPipeline, hE] at h
    simp at h
  · have hEok := attemptTask_some (extract env.eenv ds) hpresE maxTries fs0 csv hE
    rcases extract_ok_eq env.eenv ds fs0 csv hEok.1 with ⟨hcsv, hEtr, hEfs⟩
    have hpresC : ∀ fs e, (convert env.cenv (some csv) fs).2.2 = Except.error e →
        (convert env.cenv (some csv) fs).1 = fs :=
      fun fs e he => (convert_error_eq _ _ _ _ he).1
    rcases hC : (attemptTask (convert env.cenv (some csv)) maxTries
        (attemptTask (extract env.eenv ds) maxTries fs0).fs).result with _ | pq
    · simp only [runPipeline, hE, hC] at h
      simp at h
    · have hCok := attemptTask_some (convert env.cenv (some csv)) hpresC maxTries _ pq hC
      rcases convert_ok_eq env.cenv (some csv) _ pq hCok.1 with
        ⟨csv', fd, hcsv', hlk, hpq, hCtr, hCfs⟩
      injection hcsv' with hcsv'
      have hpresU : ∀ fs e, (upload env.uenv ds (some pq) fs).2.2 = Except.error e →
          (upload env.uenv ds (some pq) fs).1 = fs :=
        fun fs e he => (upload_error_eq _ _ _ _ _ he).1
      rcases hU : (attemptTask (upload env.uenv ds (some pq)) maxTries
          (attemptTask (convert env.cenv (some csv)) maxTries
            (attemptTask (extract env.eenv ds) maxTries fs0).fs).fs).result with _ | r0
      · simp only [runPipeline, hE, hC, hU] at h
        simp at h
      · have hUok := attemptTask_some (upload env.uenv ds (some pq)) hpresU maxTries _ r0 hU
        rcases upload_ok_eq env.uenv ds (some pq) _ r0 hUok.1 with
          ⟨pq', fd2, hpq', hlk2, hbk, hkey, hsz, hUtr, hUfs⟩
        injection hpq' with hpq'
        have hkeyc : r0.key = canonicalKey ds := by
          rw [hkey, ← hpq', hpq, ← hcsv', hcsv]
          rfl
        have hputs :
            putsOf ((attemptTask (extract env.eenv ds) maxTries fs0).trace ++
              (attemptTask (convert env.cenv (some csv)) maxTries
                (attemptTask (extract env.eenv ds) maxTries fs0).fs).trace ++
              (attemptTask (upload env.uenv ds (some pq)) maxTries
                (attemptTask (convert env.cenv (some csv)) maxTries
                  (attemptTask (extract env.eenv ds) maxTries fs0).fs).fs).trace ++
              (attemptTask (fun fs => (fs, [], notify ds (some r0))) maxTries
                (attemptTask (upload env.uenv ds (some pq)) maxTries
                  (attemptTask (convert env.cenv (some csv)) maxTries
                    (attemptTask (extract env.eenv ds) maxTries fs0).fs).fs).fs).trace)
              = [((r0.bucket, r0.key), r0.file_size_bytes)] := by
          rw [putsOf_append, putsOf_append, putsOf_append]
          rw [hEok.2.2, hEtr, hCok.2.2, hCtr, hUok.2.2, hUtr]
          have hnt : putsOf (attemptTask (fun fs => (fs, [], notify ds (some r0))) maxTries
              (attemptTask (upload env.uenv ds (some pq)) maxTries
                (attemptTask (convert env.cenv (some csv)) maxTries
                  (attemptTask (extract env.eenv ds) maxTries fs0).fs).fs).fs).trace = [] := by
            refine putsOf_wait_only _ ?_
            refine attemptTask_events _ _ ?_ (fun m => ⟨m, rfl⟩) maxTries _
            intro fs ev hev
            simp at hev
          rw [hnt, hsz]
          simp [putsOf]
        rcases hN : (attemptTask (fun fs => (fs, [], notify ds (some r0))) maxTries
            (attemptTask (upload env.uenv ds (some pq)) maxTries
              (attemptTask (convert env.cenv (some csv)) maxTries
                (attemptTask (extract env.eenv ds) maxTries fs0).fs).fs).fs).result with _ | rec
        · simp only [runPipeline, hE, hC, hU, hN] at h ⊢
          injection h with h0
          subst h0
          exact ⟨hkeyc, hbk, hputs⟩
        · simp only [runPipeline, hE, hC, hU, hN] at h ⊢
          injection h with h0
          subst h0
          exact ⟨hkeyc, hbk, hputs⟩

/-- A run that never obtained an upload result wrote nothing to the object
store. -/
theorem run_no_put_of_no_upload (env : RunEnv) (ds : Str) (fs0 : FS)
    (h : (runPipeline env ds fs0).uploadResult = none) :
    ∀ b k v, Event.s3put b k v ∉ (runPipeline env ds fs0).trace := by
  have hPE : ∀ fs, ∀ ev ∈ (extract env.eenv ds fs).2.1,
      ∀ b k v, ev ≠ Event.s3put b k v := by
    intro fs ev hev b k v
    rcases extract_trace_events env.eenv ds fs ev hev with ⟨p, rfl⟩
    simp
  have hwaitP : ∀ m, ∀ b k v, (Event.wait m) ≠ Event.s3put b k v := by
    intro m b k v; simp
  rcases hE : (attemptTask (extract env.eenv ds) maxTries fs0).result with _ | csv
  · simp only [runPipeline, hE]
    intro b k v hmem
    exact attemptTask_events _ (fun ev => ∀ b k v, ev ≠ Event.s3put b k v)
      hPE hwaitP maxTries fs0 _ hmem b k v rfl
  · have hPC : ∀ fs, ∀ ev ∈ (convert env.cenv (some csv) fs).2.1,
        ∀ b k v, ev ≠ Event.s3put b k v := by
      intro fs ev hev b k v
      rcases convert_trace_events env.cenv (some csv) fs ev hev with ⟨p, rfl⟩ | ⟨p, rfl⟩ <;> simp
    rcases hC : (attemptTask (convert env.cenv (some csv)) maxTries
        (attemptTask (extract env.eenv ds) maxTries fs0).fs).result with _ | pq
    · simp only [runPipeline, hE, hC]
      intro b k v hmem
      rcases List.mem_append.mp hmem with h1 | h1
      · exact attemptTask_events _ (fun ev => ∀ b k v, ev ≠ Event.s3put b k v)
          hPE hwaitP maxTries fs0 _ h1 b k v rfl
      · exact attemptTask_events _ (fun ev => ∀ b k v, ev ≠ Event.s3put b k v)
          hPC hwaitP maxTries _ _ h1 b k v rfl
    · have hPU : ∀ fs e, (upload env.uenv ds (some pq) fs).2.2 = Except.error e →
          ∀ ev ∈ (upload env.uenv ds (some pq) fs).2.1,
            ∀ b k v, ev ≠ Event.s3put b k v := by
        intro fs e he ev hev b k v hc
        subst hc
        exact (upload_error_eq env.uenv ds (some pq) fs e he).2.2 b k v hev
      rcases hU : (attemptTask (upload env.uenv ds (some pq)) maxTries
          (attemptTask (convert env.cenv (some csv)) maxTries
            (attemptTask (extract env.eenv ds) maxTries fs0).fs).fs).result with _ | r0
      · simp only [runPipeline, hE, hC, hU]
        intro b k v hmem
        rcases List.mem_append.mp hmem with h1 | h1
        · rcases List.mem_append.mp h1 with h2 | h2
          · exact attemptTask_events _ (fun ev => ∀ b k v, ev ≠ Event.s3put b k v)
              hPE hwaitP maxTries fs0 _ h2 b k v rfl
          · exact attemptTask_events _ (fun ev => ∀ b k v, ev ≠ Event.s3put b k v)
              hPC hwaitP maxTries _ _ h2 b k v rfl
        · exact attemptTask_none_events _ (fun ev => ∀ b k v, ev ≠ Event.s3put b k v)
            hPU hwaitP maxTries _ hU _ h1 b k v rfl
      · rcases hN : (attemptTask (fun fs => (fs, [], notify ds (some r0))) maxTries
            (attemptTask (upload env.uenv ds (some pq)) maxTries
              (attemptTask (convert env.cenv (some csv)) maxTries
                (attemptTask (extract env.eenv ds) maxTries fs0).fs).fs).fs).result with _ | rec
        · simp only [runPipeline, hE, hC, hU, hN] at h
          simp at h
        · simp only [runPipeline, hE, hC, hU, hN] at h
          simp at h

/-! ## Concrete fixtures used by the witnesses -/

def sampleRowA : SourceRow :=
  ⟨7200, 1, 1, 2, 3, 4, 5, 6, strOf "pune", strOf "india"⟩

def sampleRowB : SourceRow :=
  ⟨3600, 2, 1, 2, 3, 4, 5, 6, strOf "pune", strOf "india"⟩

def sampleDs : Str := dsOf 2025 3 7

def sampleRunEnv : RunEnv :=
  ⟨⟨true, 10000, [sampleRowA, sampleRowB]⟩, ⟨true, true⟩,
   ⟨some (strOf "bkt"), none, true, true, 42⟩⟩

def sampleUpload : UploadResult := ⟨strOf "bkt", canonicalKey sampleDs, 208, 42⟩

def sampleFs1 : FS := [(csvPathOf sampleDs, ⟨FileFmt.rowCsv, [], 64⟩)]

/-- The property that every deletion of a `.csv` staging file in a trace is
preceded by the write of its sibling `.parquet` file. -/
def deleteAfterWrite (tr : List Event) : Prop :=
  ∀ (i : Nat) (p : Str), tr[i]? = some (Event.deleteFile p) →
    ∃ j, j < i ∧
      tr[j]? = some (Event.writeFile (pyReplace p (strOf ".csv") (strOf ".parquet")))

/-! ## Claims -/

/-- C2: for every run date `(y, m, d)`, the Uploader's object key has the
form `timescale_data/year=YYYY/month=MM/day=DD/<filename>`, where the date
fields are the zero-padded decimal renderings of the run date's year, month
and day (`natOfDigits` decodes them back); in particular for run date
2025-03-07 the full pipeline key is
`timescale_data/year=2025/month=03/day=07/timescale_data_2025-03-07.parquet`. -/
theorem partition_key_format (y m d : Nat) (fname : Str)
    (hy : y < 10000) (hm : m < 100) (hd : d < 100) :
    s3KeyOf (dsOf y m d) fname
      = strOf "timescale_data/year=" ++ padDigits 4 y ++ strOf "/month=" ++ padDigits 2 m
        ++ strOf "/day=" ++ padDigits 2 d ++ strOf "/" ++ fname
    ∧ natOfDigits (padNatDigits 4 y) = y
    ∧ natOfDigits (padNatDigits 2 m) = m
    ∧ natOfDigits (padNatDigits 2 d) = d
    ∧ canonicalKey (dsOf 2025 3 7)
        = strOf "timescale_data/year=2025/month=03/day=07/timescale_data_2025-03-07.parquet" := by
  refine ⟨rfl, ?_, ?_, ?_, by decide⟩
  · simp only [natOfDigits, padNatDigits, List.range_succ, List.range_zero,
      List.reverse_append, List.reverse_cons, List.reverse_nil, List.map, List.foldl,
      List.nil_append, List.cons_append]
    omega
  · simp only [natOfDigits, padNatDigits, List.range_succ, List.range_zero,
      List.reverse_append, List.reverse_cons, List.reverse_nil, List.map, List.foldl,
      List.nil_append, List.cons_append]
    omega
  · simp only [natOfDigits, padNatDigits, List.range_succ, List.range_zero,
      List.reverse_append, List.reverse_cons, List.reverse_nil, List.map, List.foldl,
      List.nil_append, List.cons_append]
    omega

/-- Witness for C2 at run date 2025-03-07. -/
theorem partition_key_format_witness :
    (2025 < 10000 ∧ 3 < 100 ∧ 7 < 100) ∧
    s3KeyOf (dsOf 2025 3 7) (strOf "f.parquet")
      = strOf "timescale_data/year=" ++ padDigits 4 2025 ++ strOf "/month=" ++ padDigits 2 3
        ++ strOf "/day=" ++ padDigits 2 7 ++ strOf "/" ++ strOf "f.parquet" :=
  ⟨⟨by decide, by decide, by decide⟩,
   (partition_key_format 2025 3 7 (strOf "f.parquet")
     (by decide) (by decide) (by decide)).1⟩

/-- C3: the Converter deletes the row-format CSV only after the parquet
output is written (in its event trace, any deletion is preceded by the write
of the sibling parquet path), and on any failure the filesystem — in
particular the CSV staging artifact — is left exactly as it was. -/
theorem converter_no_premature_delete (env : ConvEnv) (xc : Option Str) (fs : FS) :
    (∀ e, (convert env xc fs).2.2 = Except.error e → (convert env xc fs).1 = fs) ∧
    deleteAfterWrite (convert env xc fs).2.1 := by
  constructor
  · intro e he
    exact (convert_error_eq env xc fs e he).1
  · intro i p hi
    rcases hres : (convert env xc fs).2.2 with e | pq
    · rcases convert_error_eq env xc fs e hres with ⟨hfs, htr⟩
      rw [htr] at hi
      simp at hi
    · rcases convert_ok_eq env xc fs pq hres with ⟨csv, fd, hxc, hlk, hpq, htr, hfs⟩
      rw [htr] at hi ⊢
      match i with
      | 0 => simp at hi
      | 1 =>
        simp only [List.getElem?_cons_succ, List.getElem?_cons_zero, Option.some.injEq] at hi
        have hcsvp : csv = p := by
          injection hi
        refine ⟨0, by omega, ?_⟩
        simp [← hcsvp, ← hpq]
      | n + 2 => simp at hi

/-- Witness for C3: a concrete successful conversion. -/
theorem converter_no_premature_delete_witness :
    (∀ e, (convert ⟨true, true⟩ (some (csvPathOf sampleDs)) sampleFs1).2.2 = Except.error e →
      (convert ⟨true, true⟩ (some (csvPathOf sampleDs)) sampleFs1).1 = sampleFs1) ∧
    deleteAfterWrite (convert ⟨true, true⟩ (some (csvPathOf sampleDs)) sampleFs1).2.1 :=
  converter_no_premature_delete ⟨true, true⟩ (some (csvPathOf sampleDs)) sampleFs1

/-- C9: whatever the input rows — in particular any permutation of a given
data set — the rows a successful Extractor writes into the staging artifact
are sorted by hour bucket descending, then device identifier ascending. -/
theorem extractor_rows_sorted (env : ExtractEnv) (rows0 : List SourceRow) (ds : Str)
    (fs : FS) (p : Str) (hperm : rows0.Perm env.rows)
    (hok : (extract env ds fs).2.2 = Except.ok p) :
    ∃ fd, lookupFS (extract env ds fs).1 p = some fd ∧
      fd.rows.Pairwise aggOrdered := by
  rcases extract_ok_eq env ds fs p hok with ⟨hp, htr, hfs⟩
  subst hp
  rw [hfs]
  exact ⟨_, lookupFS_setFile_self _ _ _, runQuery_sorted env.now env.rows⟩

/-- Witness for C9: the sample rows in swapped order. -/
theorem extractor_rows_sorted_witness :
    ([sampleRowA, sampleRowB] : List SourceRow).Perm [sampleRowB, sampleRowA] ∧
    (∃ fd, lookupFS (extract ⟨true, 10000, [sampleRowB, sampleRowA]⟩ sampleDs []).1
        (csvPathOf sampleDs) = some fd ∧ fd.rows.Pairwise aggOrdered) :=
  ⟨List.Perm.swap sampleRowB sampleRowA [],
   extractor_rows_sorted ⟨true, 10000, [sampleRowB, sampleRowA]⟩
     [sampleRowA, sampleRowB] sampleDs [] (csvPathOf sampleDs)
     (List.Perm.swap sampleRowB sampleRowA []) rfl⟩

theorem lookupFS_removeFile_self (fs : FS) (p : Str) :
    lookupFS (removeFile fs p) p = none := by
  induction fs with
  | nil => rfl
  | cons e t ih =>
    simp only [removeFile, List.filter_cons] at ih ⊢
    by_cases he : e.1 = p
    · simpa [he] using ih
    · simpa [he, lookupFS] using ih

def samplePq : Str := parquetPathOf sampleDs

def sampleFd : FileData := ⟨FileFmt.colParquet, [], 128⟩

def sampleFs2 : FS := [(samplePq, sampleFd)]

def sampleUEnv : UploadEnv := ⟨some (strOf "bkt"), none, true, true, 42⟩

def sampleUpload2 : UploadResult := ⟨strOf "bkt", canonicalKey sampleDs, 128, 42⟩

/-- C4: the Uploader deletes the local parquet artifact exactly when the
transfer succeeds: on success the local file is removed (and a deletion
event emitted); on any failure the filesystem is unchanged and nothing is
deleted; and the failures are classified as the code raises them — missing
input gives `FileNotFoundError`, an unset bucket gives `ValueError`, and a
session or transfer error gives `UploadError`. -/
theorem uploader_deletes_iff_success (env : UploadEnv) (ds : Str) (xc : Option Str)
    (fs : FS) :
    (∀ r, (upload env ds xc fs).2.2 = Except.ok r →
      ∃ pq, xc = some pq ∧ (upload env ds xc fs).1 = removeFile fs pq ∧
        lookupFS (upload env ds xc fs).1 pq = none ∧
        Event.deleteFile pq ∈ (upload env ds xc fs).2.1) ∧
    (∀ e, (upload env ds xc fs).2.2 = Except.error e →
      (upload env ds xc fs).1 = fs ∧
      ∀ p, Event.deleteFile p ∉ (upload env ds xc fs).2.1) ∧
    (xc = none → (upload env ds xc fs).2.2 = Except.error PipeError.fileNotFoundError) ∧
    (∀ pq, xc = some pq → (pq = [] ∨ lookupFS fs pq = none) →
      (upload env ds xc fs).2.2 = Except.error PipeError.fileNotFoundError) ∧
    (∀ pq, xc = some pq → pq ≠ [] → lookupFS fs pq ≠ none → env.bucket = none →
      (upload env ds xc fs).2.2 = Except.error PipeError.valueError) ∧
    (∀ pq, xc = some pq → pq ≠ [] → lookupFS fs pq ≠ none → env.bucket ≠ none →
      (env.sessionOk = false ∨ env.transferOk = false) →
      (upload env ds xc fs).2.2 = Except.error PipeError.uploadError) := by
  refine ⟨?_, ?_, ?_, ?_, ?_, ?_⟩
  · intro r hr
    rcases upload_ok_eq env ds xc fs r hr with ⟨pq, fd, hxc, hlk, hbk, hkey, hsz, htr, hfs⟩
    refine ⟨pq, hxc, hfs, ?_, ?_⟩
    · rw [hfs]
      exact lookupFS_removeFile_self fs pq
    · rw [htr]
      simp
  · intro e he
    rcases upload_error_eq env ds xc fs e he with ⟨hfs, hdel, hput⟩
    exact ⟨hfs, hdel⟩
  · intro hxc
    subst hxc
    rfl
  · intro pq hxc hmiss
    subst hxc
    rcases hmiss with hpq | hlk
    · subst hpq
      rfl
    · by_cases hpq : pq = []
      · subst hpq
        rfl
      · simp [upload, hpq, hlk]
  · intro pq hxc hpq hlk hb
    subst hxc
    rcases hl : lookupFS fs pq with _ | fd
    · exact absurd hl hlk
    · simp [upload, hpq, hl, hb]
  · intro pq hxc hpq hlk hb hst
    subst hxc
    rcases hl : lookupFS fs pq with _ | fd
    · exact absurd hl hlk
    · rcases hbv : env.bucket with _ | bucket
      · exact absurd hbv hb
      · rcases hst with hs | ht
        · simp [upload, hpq, hl, hbv, hs]
        · by_cases hsess : env.sessionOk
          · simp [upload, hpq, hl, hbv, hsess, ht]
          · simp [upload, hpq, hl, hbv, hsess]

/-- Witness for C4: a concrete upload environment and staging file. -/
theorem uploader_deletes_iff_success_witness :
    (∀ r, (upload sampleUEnv sampleDs (some samplePq) sampleFs2).2.2 = Except.ok r →
      ∃ pq, some samplePq = some pq ∧
        (upload sampleUEnv sampleDs (some samplePq) sampleFs2).1 = removeFile sampleFs2 pq ∧
        lookupFS (upload sampleUEnv sampleDs (some samplePq) sampleFs2).1 pq = none ∧
        Event.deleteFile pq ∈ (upload sampleUEnv sampleDs (some samplePq) sampleFs2).2.1) ∧
    (∀ e, (upload sampleUEnv sampleDs (some samplePq) sampleFs2).2.2 = Except.error e →
      (upload sampleUEnv sampleDs (some samplePq) sampleFs2).1 = sampleFs2 ∧
      ∀ p, Event.deleteFile p ∉ (upload sampleUEnv sampleDs (some samplePq) sampleFs2).2.1) ∧
    (some samplePq = none →
      (upload sampleUEnv sampleDs (some samplePq) sampleFs2).2.2 =
        Except.error PipeError.fileNotFoundError) ∧
    (∀ pq, some samplePq = some pq → (pq = [] ∨ lookupFS sampleFs2 pq = none) →
      (upload sampleUEnv sampleDs (some samplePq) sampleFs2).2.2 =
        Except.error PipeError.fileNotFoundError) ∧
    (∀ pq, some samplePq = some pq → pq ≠ [] → lookupFS sampleFs2 pq ≠ none →
      sampleUEnv.bucket = none →
      (upload sampleUEnv sampleDs (some samplePq) sampleFs2).2.2 =
        Except.error PipeError.valueError) ∧
    (∀ pq, some samplePq = some pq → pq ≠ [] → lookupFS sampleFs2 pq ≠ none →
      sampleUEnv.bucket ≠ none →
      (sampleUEnv.sessionOk = false ∨ sampleUEnv.transferOk = false) →
      (upload sampleUEnv sampleDs (some samplePq) sampleFs2).2.2 =
        Except.error PipeError.uploadError) :=
  uploader_deletes_iff_success sampleUEnv sampleDs (some samplePq) sampleFs2

/-- C5 counterexample: at a retry where the row-format staging artifact was
already deleted (empty filesystem), the Converter raises
`FileNotFoundError` with an empty event trace — nothing is re-derived and
no earlier stage is re-run, refuting the claim that such a retry re-derives
the missing artifact by re-running the minimal prefix of stages rather than
failing. -/
theorem retry_no_rederive_counterexample :
    convert ⟨true, true⟩ (some (csvPathOf sampleDs)) [] =
      ([], ([] : List Event), Except.error PipeError.fileNotFoundError) := rfl

/-- C5 amended: retries re-run only the failed stage; when that stage's
required input artifact no longer exists on disk at retry time, the retried
stage fails with `FileNotFoundError`, re-derives nothing (empty trace), and
leaves the filesystem unchanged. -/
theorem retry_missing_input_fails (cenv : ConvEnv) (uenv : UploadEnv) (ds csv pq : Str)
    (fs : FS) (hcsv : lookupFS fs csv = none) (hpq : lookupFS fs pq = none) :
    convert cenv (some csv) fs = (fs, [], Except.error PipeError.fileNotFoundError) ∧
    upload uenv ds (some pq) fs = (fs, [], Except.error PipeError.fileNotFoundError) := by
  constructor
  · by_cases hc : csv = []
    · simp [convert, hc]
    · simp [convert, hc, hcsv]
  · by_cases hp : pq = []
    · simp [upload, hp]
    · simp [upload, hp, hpq]

/-- Witness for the amended C5: retrying either downstream stage on an empty
filesystem. -/
theorem retry_missing_input_fails_witness :
    lookupFS [] (csvPathOf sampleDs) = none ∧ lookupFS [] samplePq = none ∧
    (convert ⟨true, true⟩ (some (csvPathOf sampleDs)) [] =
      ([], [], Except.error PipeError.fileNotFoundError) ∧
     upload sampleUEnv sampleDs (some samplePq) [] =
      ([], [], Except.error PipeError.fileNotFoundError)) :=
  ⟨rfl, rfl,
   retry_missing_input_fails ⟨true, true⟩ sampleUEnv sampleDs (csvPathOf sampleDs)
     samplePq [] rfl rfl⟩

/-- C8: when the destination bucket configuration is absent the Uploader
fails, performs no network I/O at all — no session is created and no
transfer happens — and, whenever its input artifact check passes so that
the configuration check is reached, the error raised is the configuration
error `ValueError`. -/
theorem missing_bucket_fails_before_network (env : UploadEnv) (ds : Str)
    (xc : Option Str) (fs : FS) (hb : env.bucket = none) :
    (∃ e, (upload env ds xc fs).2.2 = Except.error e) ∧
    (∀ p, Event.mkSession p ∉ (upload env ds xc fs).2.1) ∧
    (∀ b k v, Event.s3put b k v ∉ (upload env ds xc fs).2.1) ∧
    (∀ pq, xc = some pq → pq ≠ [] → lookupFS fs pq ≠ none →
      (upload env ds xc fs).2.2 = Except.error PipeError.valueError) := by
  rcases xc with _ | pq
  · refine ⟨⟨PipeError.fileNotFoundError, rfl⟩, by simp [upload], by simp [upload], ?_⟩
    intro pq h
    cases h
  · by_cases hpq : pq = []
    · refine ⟨⟨PipeError.fileNotFoundError, by simp [upload, hpq]⟩,
        by simp [upload, hpq], by simp [upload, hpq], ?_⟩
      intro pq' hps hne hlk
      injection hps with hps
      subst hps
      exact absurd hpq hne
    · rcases hl : lookupFS fs pq with _ | fd
      · refine ⟨⟨PipeError.fileNotFoundError, by simp [upload, hpq, hl]⟩,
          by simp [upload, hpq, hl], by simp [upload, hpq, hl], ?_⟩
        intro pq' hps hne hlk
        injection hps with hps
        subst hps
        exact absurd hl hlk
      · refine ⟨⟨PipeError.valueError, by simp [upload, hpq, hl, hb]⟩,
          by simp [upload, hpq, hl, hb], by simp [upload, hpq, hl, hb], ?_⟩
        intro pq' hps hne hlk
        injection hps with hps
        subst hps
        simp [upload, hpq, hl, hb]

def sampleNoBucketEnv : UploadEnv := ⟨none, none, true, true, 42⟩

/-- Witness for C8: unset bucket with an otherwise valid input. -/
theorem missing_bucket_fails_before_network_witness :
    sampleNoBucketEnv.bucket = none ∧
    ((∃ e, (upload sampleNoBucketEnv sampleDs (some samplePq) sampleFs2).2.2 =
        Except.error e) ∧
     (∀ p, Event.mkSession p ∉
        (upload sampleNoBucketEnv sampleDs (some samplePq) sampleFs2).2.1) ∧
     (∀ b k v, Event.s3put b k v ∉
        (upload sampleNoBucketEnv sampleDs (some samplePq) sampleFs2).2.1) ∧
     (∀ pq, some samplePq = some pq → pq ≠ [] → lookupFS sampleFs2 pq ≠ none →
        (upload sampleNoBucketEnv sampleDs (some samplePq) sampleFs2).2.2 =
          Except.error PipeError.valueError)) :=
  ⟨rfl, missing_bucket_fails_before_network sampleNoBucketEnv sampleDs
    (some samplePq) sampleFs2 rfl⟩

/-- C10: on a successful upload, the recorded `file_size_bytes` equals the
uploaded parquet file's on-disk size as it stood before the local file was
deleted (the file is gone afterwards), and the Notifier's completion record
reports exactly that size. -/
theorem notifier_size_matches_disk (env : UploadEnv) (ds dsn : Str) (pq : Str)
    (fs : FS) (fd : FileData) (r : UploadResult)
    (hfile : lookupFS fs pq = some fd)
    (hok : (upload env ds (some pq) fs).2.2 = Except.ok r) :
    r.file_size_bytes = fd.bytes ∧
    lookupFS (upload env ds (some pq) fs).1 pq = none ∧
    ∃ rec, notify dsn (some r) = Except.ok rec ∧ rec.size_bytes = fd.bytes := by
  rcases upload_ok_eq env ds (some pq) fs r hok with
    ⟨pq', fd2, hps, hlk2, hbk, hkey, hsz, htr, hfs⟩
  injection hps with hps
  subst hps
  rw [hfile] at hlk2
  injection hlk2 with hfd
  subst hfd
  refine ⟨hsz, ?_, ⟨_, rfl, hsz⟩⟩
  rw [hfs]
  exact lookupFS_removeFile_self fs pq

/-- Witness for C10: a concrete successful upload and its notification. -/
theorem notifier_size_matches_disk_witness :
    lookupFS sampleFs2 samplePq = some sampleFd ∧
    (upload sampleUEnv sampleDs (some samplePq) sampleFs2).2.2 = Except.ok sampleUpload2 ∧
    (sampleUpload2.file_size_bytes = sampleFd.bytes ∧
     lookupFS (upload sampleUEnv sampleDs (some samplePq) sampleFs2).1 samplePq = none ∧
     ∃ rec, notify sampleDs (some sampleUpload2) = Except.ok rec ∧
       rec.size_bytes = sampleFd.bytes) :=
  ⟨rfl, rfl,
   notifier_size_matches_disk sampleUEnv sampleDs sampleDs samplePq sampleFs2
     sampleFd sampleUpload2 rfl rfl⟩

/-- C1: the object key of any successful run is `canonicalKey ds`, a
function of the run date alone; two runs with the same run date (and the
same configured bucket) therefore upload to the same key regardless of
their source data, and replaying both runs' traces against the object store
leaves exactly one object at that key — the second upload overwrote the
first. -/
theorem partition_key_idempotent (env1 env2 : RunEnv) (ds : Str) (fs1 fs2 : FS)
    (s3 : S3State) (r1 r2 : UploadResult)
    (h1 : (runPipeline env1 ds fs1).uploadResult = some r1)
    (h2 : (runPipeline env2 ds fs2).uploadResult = some r2)
    (hbk : env1.uenv.bucket = env2.uenv.bucket) :
    r1.key = r2.key ∧ r1.key = canonicalKey ds ∧ r1.bucket = r2.bucket ∧
    countKey (applyEvents (applyEvents s3 (runPipeline env1 ds fs1).trace)
      (runPipeline env2 ds fs2).trace) r2.bucket r2.key = 1 := by
  rcases run_upload_some env1 ds fs1 r1 h1 with ⟨hk1, hb1, hp1⟩
  rcases run_upload_some env2 ds fs2 r2 h2 with ⟨hk2, hb2, hp2⟩
  have hbeq : r1.bucket = r2.bucket := by
    rw [hbk] at hb1
    have := hb1.symm.trans hb2
    injection this
  have happly : applyEvents (applyEvents s3 (runPipeline env1 ds fs1).trace)
      (runPipeline env2 ds fs2).trace
      = s3putObj (applyEvents s3 (runPipeline env1 ds fs1).trace)
          r2.bucket r2.key r2.file_size_bytes := by
    rw [applyEvents_eq_puts _ (runPipeline env2 ds fs2).trace, hp2]
    rfl
  rw [happly]
  exact ⟨hk1.trans hk2.symm, hk1, hbeq, countKey_s3putObj _ _ _ _⟩

/-- Witness for C1: the same run executed twice. -/
theorem partition_key_idempotent_witness :
    (runPipeline sampleRunEnv sampleDs []).uploadResult = some sampleUpload ∧
    (sampleUpload.key = sampleUpload.key ∧ sampleUpload.key = canonicalKey sampleDs ∧
     sampleUpload.bucket = sampleUpload.bucket ∧
     countKey (applyEvents (applyEvents [] (runPipeline sampleRunEnv sampleDs []).trace)
       (runPipeline sampleRunEnv sampleDs []).trace) sampleUpload.bucket
       sampleUpload.key = 1) :=
  ⟨rfl,
   partition_key_idempotent sampleRunEnv sampleRunEnv sampleDs [] [] [] sampleUpload
     sampleUpload rfl rfl rfl⟩

/-- C6: with the source store unreachable, the run fails at the Extractor
after exactly `1 + retries` attempts, where `default_args` fixes 2 retries
with a 5-minute backoff between attempts; no staging file is written and no
destination object is put. -/
theorem source_unreachable_run_failed (env : RunEnv) (ds : Str) (fs0 : FS)
    (hdb : env.eenv.dbOk = false) :
    (runPipeline env ds fs0).state = RunState.Failed ∧
    (runPipeline env ds fs0).failedStage = some Stage.extracting ∧
    (runPipeline env ds fs0).extractAttempts = 1 + default_args.retries ∧
    default_args.retries = 2 ∧
    default_args.retry_delay_minutes = 5 ∧
    (runPipeline env ds fs0).fs = fs0 ∧
    (runPipeline env ds fs0).trace = [Event.wait 5, Event.wait 5] ∧
    (∀ p, Event.writeFile p ∉ (runPipeline env ds fs0).trace) ∧
    (∀ b k v, Event.s3put b k v ∉ (runPipeline env ds fs0).trace) := by
  have hstep : ∀ fs, extract env.eenv ds fs =
      (fs, [], Except.error PipeError.extractionError) := by
    intro fs
    simp [extract, hdb]
  have hA := attemptTask_const_error (extract env.eenv ds)
    PipeError.extractionError hstep fs0
  have hE : (attemptTask (extract env.eenv ds) maxTries fs0).result = none := by
    rw [hA]
  simp [runPipeline, hE, hA, default_args]

def sampleFailEnv : RunEnv :=
  ⟨⟨false, 10000, []⟩, ⟨true, true⟩, ⟨some (strOf "bkt"), none, true, true, 42⟩⟩

/-- Witness for C6: a run whose source store is unreachable. -/
theorem source_unreachable_run_failed_witness :
    sampleFailEnv.eenv.dbOk = false ∧
    ((runPipeline sampleFailEnv sampleDs []).state = RunState.Failed ∧
     (runPipeline sampleFailEnv sampleDs []).failedStage = some Stage.extracting ∧
     (runPipeline sampleFailEnv sampleDs []).extractAttempts = 1 + default_args.retries ∧
     default_args.retries = 2 ∧
     default_args.retry_delay_minutes = 5 ∧
     (runPipeline sampleFailEnv sampleDs []).fs = [] ∧
     (runPipeline sampleFailEnv sampleDs []).trace = [Event.wait 5, Event.wait 5] ∧
     (∀ p, Event.writeFile p ∉ (runPipeline sampleFailEnv sampleDs []).trace) ∧
     (∀ b k v, Event.s3put b k v ∉ (runPipeline sampleFailEnv sampleDs []).trace)) :=
  ⟨rfl, source_unreachable_run_failed sampleFailEnv sampleDs [] rfl⟩

/-- C7: an object is put to the store during a run only if that run's
Uploader stage reported success; in particular a `Failed` run (whose
Uploader never succeeded) leaves no destination object behind. -/
theorem failed_run_writes_no_object (env : RunEnv) (ds : Str) (fs0 : FS)
    (b k : Str) (v : Nat)
    (hmem : Event.s3put b k v ∈ (runPipeline env ds fs0).trace) :
    (runPipeline env ds fs0).uploadResult.isSome = true := by
  rcases hres : (runPipeline env ds fs0).uploadResult with _ | r
  · exact absurd hmem (run_no_put_of_no_upload env ds fs0 hres b k v)
  · rfl

/-- Witness for C7: the successful sample run's put event. -/
theorem failed_run_writes_no_object_witness :
    Event.s3put (strOf "bkt") (canonicalKey sampleDs) 208 ∈
      (runPipeline sampleRunEnv sampleDs []).trace ∧
    (runPipeline sampleRunEnv sampleDs []).uploadResult.isSome = true :=
  ⟨by decide,
   failed_run_writes_no_object sampleRunEnv sampleDs [] (strOf "bkt")
     (canonicalKey sampleDs) 208 (by decide)⟩

end TimescalePipeline
